import Mathlib

/-
Shallow embedding of
`src/cognee/infrastructure/databases/vector/embeddings/instruction_manager.py`.

State that Python keeps implicitly is passed explicitly:
- the `ContextVar` holding the ambient instruction type becomes an
  `Option String` argument (`ctx`);
- the embedding configuration read via `get_embedding_config()` becomes an
  `EmbeddingConfig` argument;
- `contextvars.Token` becomes a structure capturing the previous value,
  matching `ContextVar.set` / `ContextVar.reset` semantics.
Python truthiness on optional strings (`if not x`) is modelled by `truthy`.
-/

namespace InstructionManager

/-- One entry of `INSTRUCTION_CONFIG`: the two role prefixes. -/
structure InstructionTemplate where
  query : String
  passage : String
deriving DecidableEq

/-- The fixed template table `INSTRUCTION_CONFIG` from the source. -/
def INSTRUCTION_CONFIG : List (String × InstructionTemplate) :=
  [ ("nl2code",
      ⟨"Find the most relevant code snippet given the following query:\n",
       "Candidate code snippet:\n"⟩),
    ("qa",
      ⟨"Find the most relevant answer given the following question:\n",
       "Candidate answer:\n"⟩),
    ("code2code",
      ⟨"Find an equivalent code snippet given the following code snippet:\n",
       "Candidate code snippet:\n"⟩),
    ("code2nl",
      ⟨"Find the most relevant comment given the following code snippet:\n",
       "Candidate comment:\n"⟩),
    ("code2completion",
      ⟨"Find the most relevant completion given the following start of code snippet:\n",
       "Candidate completion:\n"⟩) ]

/-- Python `key in INSTRUCTION_CONFIG` / `INSTRUCTION_CONFIG.get(key) is not None`. -/
def isKnownKey (s : String) : Bool :=
  (INSTRUCTION_CONFIG.lookup s).isSome

/-- Python `str.lower()`: lowercase every character. -/
def pyLower (s : String) : String :=
  ⟨s.data.map Char.toLower⟩

/-- Python `str.strip()`: drop whitespace from both ends. -/
def pyStrip (s : String) : String :=
  ⟨((s.data.dropWhile Char.isWhitespace).reverse.dropWhile Char.isWhitespace).reverse⟩

/-- The external embedding configuration fields read by this module. -/
structure EmbeddingConfig where
  embedding_instruction_mode : Option String
  embedding_instruction_default : Option String
deriving DecidableEq

/-- Python `x or default` on an optional string: `None` and `""` are falsy. -/
def orDefault (o : Option String) (d : String) : String :=
  match o with
  | none => d
  | some s => if s = "" then d else s

/-- Python truthiness of an optional string: `None` and `""` are falsy. -/
def truthy (o : Option String) : Bool :=
  match o with
  | none => false
  | some s => s ≠ ""

/-- The literal disabled-mode set from `_instructions_enabled`. -/
def disabledModes : List String :=
  ["", "off", "false", "0", "disabled", "none"]

/-- Embeds `_instructions_enabled`:
`mode = (config.embedding_instruction_mode or "off").strip().lower()`,
then `mode not in` the disabled set. -/
def _instructions_enabled (config : EmbeddingConfig) : Bool :=
  let mode := pyLower (pyStrip (orDefault config.embedding_instruction_mode "off"))
  !(disabledModes.contains mode)

/-- Embeds `normalize_instruction_type`: falsy input gives `None`; otherwise
the stripped lowercased string if it is a key of `INSTRUCTION_CONFIG`,
else `None`. -/
def normalize_instruction_type : Option String → Option String
  | none => none
  | some s =>
    if s = "" then none
    else
      let lowered := pyLower (pyStrip s)
      if isKnownKey lowered then some lowered else none

/-- A `contextvars.Token`: records the value the variable held before `set`. -/
structure Token where
  oldValue : Option String
deriving DecidableEq

/-- Embeds `push_instruction_type`: normalize, return `(state, None)` as a
no-op when normalization fails, otherwise set the context variable and return
the token capturing the previous value. -/
def push_instruction_type (ctx : Option String) (instruction_type : Option String) :
    Option String × Option Token :=
  match normalize_instruction_type instruction_type with
  | none => (ctx, none)
  | some normalized => (some normalized, some ⟨ctx⟩)

/-- Embeds `pop_instruction_type`: with a token, reset the context variable to
the token's captured value; with `None`, do nothing. -/
def pop_instruction_type (ctx : Option String) (token : Option Token) : Option String :=
  match token with
  | none => ctx
  | some t => t.oldValue

/-- Embeds `instruction_scope`: push on entry, pop in a `finally` block so it
runs whether the body returns normally or raises (`bodyAborts` records which);
the body itself does not touch the context variable. Returns the ambient value
after exit together with the abort flag. -/
def instruction_scope_run (ctx : Option String) (instruction_type : Option String)
    (bodyAborts : Bool) : Option String × Bool :=
  let pushed := push_instruction_type ctx instruction_type
  (pop_instruction_type pushed.1 pushed.2, bodyAborts)

/-- Embeds `get_active_instruction_type`: explicit argument first, then the
ambient context value, then the configured default, each gated by Python
truthiness exactly as in the source. -/
def get_active_instruction_type (ctx : Option String) (config : EmbeddingConfig)
    (explicit_type : Option String) : Option String :=
  let normalized := normalize_instruction_type explicit_type
  if truthy normalized then normalized
  else if truthy ctx then ctx
  else normalize_instruction_type config.embedding_instruction_default

/-- Embeds `_format_with_instruction`: resolve the instruction, return the
texts unchanged when it is falsy or has no template, otherwise prepend the
role-selected prefix (`role == "query"` picks `query`, anything else picks
`passage`), with a falsy (empty) text yielding the prefix alone. -/
def _format_with_instruction (ctx : Option String) (config : EmbeddingConfig)
    (texts : List String) (role : String) (instruction_type : Option String) :
    List String :=
  let instruction := get_active_instruction_type ctx config instruction_type
  match instruction with
  | none => texts
  | some i =>
    if i = "" then texts
    else
      match INSTRUCTION_CONFIG.lookup i with
      | none => texts
      | some template =>
        let pfx := if role = "query" then template.query else template.passage
        texts.map (fun text => if text = "" then pfx else pfx ++ text)

/-- Embeds `prepare_query_texts`: short-circuit when disabled, otherwise
format with role `query`. -/
def prepare_query_texts (ctx : Option String) (config : EmbeddingConfig)
    (texts : List String) (instruction_type : Option String) : List String :=
  if _instructions_enabled config = false then texts
  else _format_with_instruction ctx config texts "query" instruction_type

/-- Embeds `prepare_passage_texts`: short-circuit when disabled, otherwise
format with role `passage`. -/
def prepare_passage_texts (ctx : Option String) (config : EmbeddingConfig)
    (texts : List String) (instruction_type : Option String) : List String :=
  if _instructions_enabled config = false then texts
  else _format_with_instruction ctx config texts "passage" instruction_type

/-- The spec's role-parameterized `formatTexts`: the common shape of
`prepare_query_texts` and `prepare_passage_texts` with the role as an
argument (enabled check first, then `_format_with_instruction`). -/
def format_texts (ctx : Option String) (config : EmbeddingConfig)
    (texts : List String) (role : String) (instruction_type : Option String) :
    List String :=
  if _instructions_enabled config = false then texts
  else _format_with_instruction ctx config texts role instruction_type

/-- The ambient-state invariant: the context value is unset or a known key. -/
def ctxOk : Option String → Bool
  | none => true
  | some s => isKnownKey s

/-- Execution state for arbitrary push/pop sequences: the context value plus
every handle returned by a push so far (tokens cannot be forged; a pop may
only use a handle some push returned, or no handle at all). -/
structure AmbientState where
  ctx : Option String
  tokens : List (Option Token)

/-- One operation on the ambient state: a push with an arbitrary optional
string, or a pop with one of the previously returned handles (`some i`
referring to the i-th push's handle) or with no handle. -/
inductive AmbientOp where
  | push (s : Option String)
  | pop (i : Option Nat)

/-- Step semantics: a push appends its returned handle to the log; a pop
resolves its handle reference (out-of-range references degrade to no
handle) and applies `pop_instruction_type`. -/
def stepOp (st : AmbientState) (op : AmbientOp) : AmbientState :=
  match op with
  | .push s =>
    let pushed := push_instruction_type st.ctx s
    ⟨pushed.1, st.tokens ++ [pushed.2]⟩
  | .pop i =>
    let tok : Option Token :=
      match i with
      | none => none
      | some j =>
        match st.tokens[j]? with
        | none => none
        | some t => t
    ⟨pop_instruction_type st.ctx tok, st.tokens⟩

/-- Run a sequence of operations from the default state (context unset,
no handles issued). -/
def runOps (ops : List AmbientOp) : AmbientState :=
  ops.foldl stepOp ⟨none, []⟩

/-- Helper: `normalize_instruction_type` only ever returns known template keys. -/
theorem normalize_known (o : Option String) (n : String)
    (h : normalize_instruction_type o = some n) : isKnownKey n = true := by
  cases o with
  | none => simp [normalize_instruction_type] at h
  | some s =>
    unfold normalize_instruction_type at h
    by_cases h0 : s = ""
    · simp [h0] at h
    · simp only [h0, if_false] at h
      by_cases h1 : isKnownKey (pyLower (pyStrip s)) = true
      · simp only [h1, if_true, Option.some.injEq] at h
        rw [← h]
        exact h1
      · simp [h1] at h

/-- Helper: known template keys are nonempty strings. -/
theorem known_ne_empty (k : String) (h : isKnownKey k = true) : k ≠ "" := by
  intro h0
  rw [h0] at h
  exact absurd h (by decide)

/-- Helper: `truthy` on an option holding a known key is `true`. -/
theorem truthy_of_known (k : String) (h : isKnownKey k = true) :
    truthy (some k) = true := by
  simp [truthy, known_ne_empty k h]

/-- C5: normalize returns the stripped lowercased string exactly when that
string is one of the five template keys, and `None` otherwise; case and
surrounding-whitespace variants of keys canonicalize, unrecognized or `None`
inputs map to `None`, and the function is total (never raises). -/
theorem normalize_matches_known_keys (o : Option String) :
    normalize_instruction_type o =
      (o.bind fun s =>
        if isKnownKey (pyLower (pyStrip s)) then some (pyLower (pyStrip s))
        else none) ∧
    normalize_instruction_type (some "  QA ") = some "qa" ∧
    normalize_instruction_type (some "\tCode2Completion ") = some "code2completion" ∧
    normalize_instruction_type (some "bogus") = none ∧
    normalize_instruction_type none = none := by
  refine ⟨?_, by decide, by decide, by decide, rfl⟩
  cases o with
  | none => rfl
  | some s =>
    by_cases h0 : s = ""
    · subst h0; decide
    · simp [normalize_instruction_type, h0]

/-- C6: instructions are disabled exactly when the stripped lowercased mode
(after the `or "off"` defaulting) is one of the six disabled literals; in
particular an unset mode defaults to `"off"` and is disabled. -/
theorem instructions_enabled_iff (cfg : EmbeddingConfig) (m : String)
    (d dm : Option String) :
    (_instructions_enabled cfg = false ↔
      pyLower (pyStrip (orDefault cfg.embedding_instruction_mode "off")) ∈ disabledModes) ∧
    (_instructions_enabled ⟨some m, d⟩ = false ↔ pyLower (pyStrip m) ∈ disabledModes) ∧
    _instructions_enabled ⟨none, dm⟩ = false := by
  have hgen : ∀ cfg' : EmbeddingConfig, _instructions_enabled cfg' = false ↔
      pyLower (pyStrip (orDefault cfg'.embedding_instruction_mode "off")) ∈ disabledModes := by
    intro cfg'
    simp [_instructions_enabled]
  refine ⟨hgen cfg, ?_, ?_⟩
  · rw [hgen ⟨some m, d⟩]
    by_cases h0 : m = ""
    · subst h0
      exact iff_of_true
        (show pyLower (pyStrip "off") ∈ disabledModes by decide)
        (show pyLower (pyStrip "") ∈ disabledModes by decide)
    · simp [orDefault, h0]
  · rw [hgen ⟨none, dm⟩]
    exact show pyLower (pyStrip "off") ∈ disabledModes by decide

/-- C8: a push whose argument does not normalize is a no-op returning no
handle, and a pop with no handle is a no-op; both are total functions. -/
theorem push_pop_graceful_noop (ctx s : Option String)
    (h : normalize_instruction_type s = none) :
    push_instruction_type ctx s = (ctx, none) ∧
    pop_instruction_type ctx none = ctx := by
  constructor
  · unfold push_instruction_type
    rw [h]
  · rfl

/-- Witness for C8 at the unrecognized input `"bogus"` with ambient `"qa"`. -/
theorem push_pop_graceful_noop_witness :
    normalize_instruction_type (some "bogus") = none ∧
    push_instruction_type (some "qa") (some "bogus") = (some "qa", none) ∧
    pop_instruction_type (some "qa") none = some "qa" :=
  ⟨by decide, push_pop_graceful_noop (some "qa") (some "bogus") (by decide)⟩

/-- C3: with instructions disabled, `format_texts` and both prepare wrappers
return the input texts unchanged, regardless of ambient or explicit type. -/
theorem format_texts_disabled_identity (ctx : Option String)
    (cfg : EmbeddingConfig) (texts : List String) (role : String)
    (it : Option String) (h : _instructions_enabled cfg = false) :
    format_texts ctx cfg texts role it = texts ∧
    prepare_query_texts ctx cfg texts it = texts ∧
    prepare_passage_texts ctx cfg texts it = texts := by
  refine ⟨?_, ?_, ?_⟩ <;>
    simp [format_texts, prepare_query_texts, prepare_passage_texts, h]

/-- Witness for C3: mode `"off"`, ambient `"code2nl"`, explicit `"qa"`. -/
theorem format_texts_disabled_identity_witness :
    _instructions_enabled ⟨some "off", some "qa"⟩ = false ∧
    format_texts (some "code2nl") ⟨some "off", some "qa"⟩ ["x", "y"] "query"
      (some "qa") = ["x", "y"] :=
  ⟨by decide,
    (format_texts_disabled_identity (some "code2nl") ⟨some "off", some "qa"⟩
      ["x", "y"] "query" (some "qa") (by decide)).1⟩

/-- Helper: the resolution equation for `get_active_instruction_type` under
the ambient invariant. -/
theorem get_active_eq (ctx : Option String) (cfg : EmbeddingConfig)
    (e : Option String) (hctx : ctxOk ctx = true) :
    get_active_instruction_type ctx cfg e =
      match normalize_instruction_type e with
      | some n => some n
      | none =>
        match ctx with
        | some c => some c
        | none => normalize_instruction_type cfg.embedding_instruction_default := by
  simp only [get_active_instruction_type]
  cases he : normalize_instruction_type e with
  | some n =>
    have hk := normalize_known e n he
    rw [if_pos (truthy_of_known n hk)]
  | none =>
    rw [if_neg (by simp [truthy])]
    cases ctx with
    | none => rw [if_neg (by simp [truthy])]
    | some c =>
      have hk : isKnownKey c = true := by simpa [ctxOk] using hctx
      rw [if_pos (truthy_of_known c hk)]

/-- C2: under the ambient invariant, resolution takes the first hit of the
normalized explicit argument, then the ambient value, then the normalized
config default, yielding `none` when all three fail. -/
theorem get_active_resolution_order (ctx : Option String) (cfg : EmbeddingConfig)
    (e : Option String) (hctx : ctxOk ctx = true) :
    get_active_instruction_type ctx cfg e =
      match normalize_instruction_type e with
      | some n => some n
      | none =>
        match ctx with
        | some c => some c
        | none => normalize_instruction_type cfg.embedding_instruction_default :=
  get_active_eq ctx cfg e hctx

/-- Witness for C2: ambient `"qa"`, empty config, no explicit argument. -/
theorem get_active_resolution_order_witness :
    ctxOk (some "qa") = true ∧
    get_active_instruction_type (some "qa") ⟨none, none⟩ none = some "qa" :=
  ⟨by decide, get_active_resolution_order (some "qa") ⟨none, none⟩ none (by decide)⟩

/-- C9: under the ambient invariant, every non-`none` resolved instruction
type has a template in `INSTRUCTION_CONFIG`, so the missing-template
fallback of `_format_with_instruction` cannot fire. -/
theorem get_active_yields_known_template (ctx : Option String)
    (cfg : EmbeddingConfig) (e : Option String) (k : String)
    (hctx : ctxOk ctx = true)
    (h : get_active_instruction_type ctx cfg e = some k) :
    ∃ tmpl, INSTRUCTION_CONFIG.lookup k = some tmpl := by
  have hk : isKnownKey k = true := by
    rw [get_active_eq ctx cfg e hctx] at h
    cases he : normalize_instruction_type e with
    | some n =>
      rw [he] at h
      obtain rfl : n = k := Option.some.inj h
      exact normalize_known e _ he
    | none =>
      rw [he] at h
      cases ctx with
      | some c =>
        obtain rfl : c = k := Option.some.inj h
        simpa [ctxOk] using hctx
      | none => exact normalize_known cfg.embedding_instruction_default k h
  simpa [isKnownKey, Option.isSome_iff_exists] using hk

/-- Witness for C9: ambient `"qa"` resolves and has a template. -/
theorem get_active_yields_known_template_witness :
    ctxOk (some "qa") = true ∧
    get_active_instruction_type (some "qa") ⟨none, none⟩ none = some "qa" ∧
    ∃ tmpl, INSTRUCTION_CONFIG.lookup "qa" = some tmpl :=
  ⟨by decide, by decide,
    get_active_yields_known_template (some "qa") ⟨none, none⟩ none "qa"
      (by decide) (by decide)⟩

/-- C10: any role other than the exact string `"query"` selects the passage
prefix; the role is never rejected or normalized. -/
theorem role_non_query_uses_passage (ctx : Option String)
    (cfg : EmbeddingConfig) (texts : List String) (role : String)
    (it : Option String) (h : role ≠ "query") :
    _format_with_instruction ctx cfg texts role it =
      _format_with_instruction ctx cfg texts "passage" it := by
  unfold _format_with_instruction
  cases get_active_instruction_type ctx cfg it with
  | none => rfl
  | some i =>
    by_cases h0 : i = ""
    · simp [h0]
    · simp only [h0, if_false]
      cases INSTRUCTION_CONFIG.lookup i with
      | none => rfl
      | some template => simp [h]

/-- Witness for C10 at the unvalidated role `"Query"`. -/
theorem role_non_query_uses_passage_witness :
    ("Query" : String) ≠ "query" ∧
    _format_with_instruction none ⟨some "on", none⟩ ["hi"] "Query" (some "qa") =
      _format_with_instruction none ⟨some "on", none⟩ ["hi"] "passage" (some "qa") :=
  ⟨by decide,
    role_non_query_uses_passage none ⟨some "on", none⟩ ["hi"] "Query" (some "qa")
      (by decide)⟩

/-- C1: with instructions enabled and a resolved type having a template,
`format_texts` maps each text to the role-selected prefix followed by the
text, with empty texts yielding the prefix alone; in particular every
enabled configuration formats `["hello"]` as a qa query as specified. -/
theorem format_texts_applies_template (ctx : Option String)
    (cfg : EmbeddingConfig) (texts : List String) (role : String)
    (it : Option String) (k : String) (tmpl : InstructionTemplate)
    (hen : _instructions_enabled cfg = true)
    (hres : get_active_instruction_type ctx cfg it = some k)
    (htmpl : INSTRUCTION_CONFIG.lookup k = some tmpl) :
    format_texts ctx cfg texts role it =
      texts.map (fun text =>
        if text = "" then (if role = "query" then tmpl.query else tmpl.passage)
        else (if role = "query" then tmpl.query else tmpl.passage) ++ text) ∧
    format_texts ctx cfg ["hello"] "query" (some "qa") =
      ["Find the most relevant answer given the following question:\nhello"] := by
  have hk : isKnownKey k = true := by
    simp [isKnownKey, htmpl]
  constructor
  · simp only [format_texts, hen, Bool.true_eq_false, if_false,
      _format_with_instruction, hres, known_ne_empty k hk, if_false, htmpl]
  · have h1 : get_active_instruction_type ctx cfg (some "qa") = some "qa" := by
      unfold get_active_instruction_type
      have hq : normalize_instruction_type (some "qa") = some "qa" := by decide
      rw [hq]
      simp [truthy]
    simp only [format_texts, hen, Bool.true_eq_false, if_false,
      _format_with_instruction, h1]
    decide

/-- Witness for C1: enabled config, explicit `"qa"`, query role, `["hello"]`. -/
theorem format_texts_applies_template_witness :
    _instructions_enabled ⟨some "on", none⟩ = true ∧
    get_active_instruction_type none ⟨some "on", none⟩ (some "qa") = some "qa" ∧
    format_texts none ⟨some "on", none⟩ ["hello"] "query" (some "qa") =
      ["Find the most relevant answer given the following question:\nhello"] :=
  ⟨by decide, by decide,
    (format_texts_applies_template none ⟨some "on", none⟩ ["hello"] "query"
      (some "qa") "qa"
      ⟨"Find the most relevant answer given the following question:\n",
       "Candidate answer:\n"⟩
      (by decide) (by decide) (by decide)).2⟩

/-- Helper: get_active on an ambient value holding a known key, with no
explicit argument, returns that ambient value. -/
theorem get_active_of_known_ctx (k : String) (cfg : EmbeddingConfig)
    (hk : isKnownKey k = true) :
    get_active_instruction_type (some k) cfg none = some k := by
  simp only [get_active_instruction_type, normalize_instruction_type]
  rw [if_neg (by simp [truthy]), if_pos (truthy_of_known k hk)]

/-- C4: a scope exit restores the pre-scope ambient value whether or not the
body aborts, so the no-argument resolution reverts; and two nested pushes of
recognized types resolve innermost-first, reverting to the outer type once
the inner handle is popped. -/
theorem instruction_scope_restores (ctx0 it : Option String) (ab : Bool)
    (s1 s2 : Option String) (k1 k2 : String) (cfg : EmbeddingConfig)
    (h1 : normalize_instruction_type s1 = some k1)
    (h2 : normalize_instruction_type s2 = some k2) :
    (instruction_scope_run ctx0 it ab).1 = ctx0 ∧
    get_active_instruction_type (instruction_scope_run ctx0 it ab).1 cfg none =
      get_active_instruction_type ctx0 cfg none ∧
    get_active_instruction_type
      (push_instruction_type (push_instruction_type ctx0 s1).1 s2).1 cfg none =
        some k2 ∧
    get_active_instruction_type
      (pop_instruction_type
        (push_instruction_type (push_instruction_type ctx0 s1).1 s2).1
        (push_instruction_type (push_instruction_type ctx0 s1).1 s2).2)
      cfg none = some k1 := by
  have hrestore : (instruction_scope_run ctx0 it ab).1 = ctx0 := by
    unfold instruction_scope_run push_instruction_type pop_instruction_type
    cases normalize_instruction_type it <;> rfl
  have hp1 : push_instruction_type ctx0 s1 = (some k1, some ⟨ctx0⟩) := by
    unfold push_instruction_type
    rw [h1]
  have hp2 : push_instruction_type (some k1) s2 = (some k2, some ⟨some k1⟩) := by
    unfold push_instruction_type
    rw [h2]
  refine ⟨hrestore, by rw [hrestore], ?_, ?_⟩
  · rw [hp1]
    show get_active_instruction_type (push_instruction_type (some k1) s2).1 cfg none = some k2
    rw [hp2]
    exact get_active_of_known_ctx k2 cfg (normalize_known s2 k2 h2)
  · rw [hp1]
    show get_active_instruction_type
      (pop_instruction_type (push_instruction_type (some k1) s2).1
        (push_instruction_type (some k1) s2).2) cfg none = some k1
    rw [hp2]
    show get_active_instruction_type (some k1) cfg none = some k1
    exact get_active_of_known_ctx k1 cfg (normalize_known s1 k1 h1)

/-- Witness for C4: empty prior ambient, scope argument `"qa"`, aborting
body, nested pushes of `"qa"` then `"code2nl"`. -/
theorem instruction_scope_restores_witness :
    normalize_instruction_type (some "qa") = some "qa" ∧
    normalize_instruction_type (some "code2nl") = some "code2nl" ∧
    ((instruction_scope_run none (some "qa") true).1 = none ∧
     get_active_instruction_type (instruction_scope_run none (some "qa") true).1
       ⟨some "on", none⟩ none =
       get_active_instruction_type none ⟨some "on", none⟩ none ∧
     get_active_instruction_type
       (push_instruction_type (push_instruction_type none (some "qa")).1
         (some "code2nl")).1 ⟨some "on", none⟩ none = some "code2nl" ∧
     get_active_instruction_type
       (pop_instruction_type
         (push_instruction_type (push_instruction_type none (some "qa")).1
           (some "code2nl")).1
         (push_instruction_type (push_instruction_type none (some "qa")).1
           (some "code2nl")).2) ⟨some "on", none⟩ none = some "qa") :=
  ⟨by decide, by decide,
    instruction_scope_restores none (some "qa") true (some "qa")
      (some "code2nl") "qa" "code2nl" ⟨some "on", none⟩ (by decide) (by decide)⟩

/-- The strengthened invariant for arbitrary push/pop sequences: the context
value is well formed and so is every captured handle. -/
def stateOk (st : AmbientState) : Prop :=
  ctxOk st.ctx = true ∧
  ∀ t ∈ st.tokens, ∀ tk : Token, t = some tk → ctxOk tk.oldValue = true

/-- Helper: a single operation preserves the strengthened invariant. -/
theorem stepOp_preserves (st : AmbientState) (op : AmbientOp)
    (h : stateOk st) : stateOk (stepOp st op) := by
  obtain ⟨hctx, htok⟩ := h
  cases op with
  | push s =>
    cases hn : normalize_instruction_type s with
    | none =>
      refine ⟨by simpa [stepOp, push_instruction_type, hn] using hctx, ?_⟩
      intro t ht tk htk
      simp only [stepOp, push_instruction_type, hn, List.mem_append,
        List.mem_singleton] at ht
      cases ht with
      | inl hmem => exact htok t hmem tk htk
      | inr hnew => simp [hnew] at htk
    | some n =>
      refine ⟨?_, ?_⟩
      · simpa [stepOp, push_instruction_type, hn, ctxOk] using
          normalize_known s n hn
      · intro t ht tk htk
        simp only [stepOp, push_instruction_type, hn, List.mem_append,
          List.mem_singleton] at ht
        cases ht with
        | inl hmem => exact htok t hmem tk htk
        | inr hnew =>
          rw [hnew] at htk
          rw [← Option.some.inj htk]
          exact hctx
  | pop i =>
    cases i with
    | none => exact ⟨hctx, htok⟩
    | some j =>
      cases hg : st.tokens[j]? with
      | none =>
        refine ⟨?_, htok⟩
        simpa [stepOp, hg, pop_instruction_type] using hctx
      | some t =>
        have hmem : t ∈ st.tokens := by
          have hg' := hg
          rw [List.getElem?_eq_some] at hg'
          obtain ⟨hlt, ht⟩ := hg'
          exact ht ▸ List.getElem_mem hlt
        cases t with
        | none =>
          refine ⟨?_, htok⟩
          simpa [stepOp, hg, pop_instruction_type] using hctx
        | some tk =>
          refine ⟨?_, htok⟩
          simpa [stepOp, hg, pop_instruction_type] using
            htok (some tk) hmem tk rfl

/-- Helper: folding any operation sequence preserves the invariant. -/
theorem foldl_preserves (ops : List AmbientOp) (st : AmbientState)
    (h : stateOk st) : stateOk (ops.foldl stepOp st) := by
  induction ops generalizing st with
  | nil => exact h
  | cons op rest ih => exact ih (stepOp st op) (stepOp_preserves st op h)

/-- C7: from the default unset state, after any sequence of pushes and pops
with arbitrary arguments and handles, the ambient value is `none` or one of
the five template keys; unrecognized values are never stored. -/
theorem ambient_invariant (ops : List AmbientOp) :
    ctxOk (runOps ops).ctx = true :=
  (foldl_preserves ops ⟨none, []⟩ ⟨rfl, by simp⟩).1

end InstructionManager
